import Mathlib

/-!
Shallow embedding of the grcpredes file-transfer system
(src/cliente.py and src/server.py): the client-side chunk generator,
the MD5 digest loops, the client verification flow, the server-side
`TransferFile` streaming handler and the `GetFileInfo` query.

Bytes are modelled as natural numbers, file contents as lists of bytes,
and the set of files visible to the server as a partial map from
filenames to contents.  The server handler additionally returns its
observable filesystem effects (which destination paths were opened for
writing, and which write calls happened) so that claims about writes
and handle lifetimes can be stated.
-/

namespace Grcpredes

/-- Wire message `FileChunk`, with the field names used by
`cliente.py` lines 62-68.  The specification calls `chunk_number` the
`sequence_number` and `is_last_chunk` the `is_final` flag. -/
structure FileChunk where
  filename : String
  data : List Nat
  chunk_number : Nat
  total_chunks : Nat
  is_last_chunk : Bool
deriving DecidableEq

/-- Wire message `TransferResponse` (the spec calls it `TransferOutcome`). -/
structure TransferResponse where
  success : Bool
  message : String
  bytes_received : Nat
deriving DecidableEq

/-- Wire message `FileInfoResponse` (the spec calls it `FileInfoResult`). -/
structure FileInfoResponse where
  file_exists : Bool
  file_size : Nat
  checksum : String
deriving DecidableEq

/-! ## Client: chunk generation (`cliente.py`, `_generate_file_chunks`) -/

/-- `total_chunks = (file_size + self.chunk_size - 1) // self.chunk_size`
(cliente.py line 43): ceiling division expressed with floor division. -/
def totalChunks (file_size chunk_size : Nat) : Nat :=
  (file_size + chunk_size - 1) / chunk_size

/-- The read-and-yield loop of `_generate_file_chunks` (cliente.py lines
49-76): each iteration reads up to `chunk_size` bytes from the remaining
content; an empty read ends the loop, otherwise the chunk is emitted with
`chunk_number` incremented, `total_chunks` carried unchanged and
`is_last_chunk` set when the new chunk number equals `total`; the loop
also ends right after emitting the chunk numbered `total`. -/
def chunkLoop (fn : String) (total chunk_size : Nat) (remaining : List Nat)
    (chunk_number : Nat) : List FileChunk :=
  if h : remaining.take chunk_size = [] then []
  else
    { filename := fn
      data := remaining.take chunk_size
      chunk_number := chunk_number + 1
      total_chunks := total
      is_last_chunk := chunk_number + 1 == total } ::
      (if chunk_number + 1 == total then []
       else chunkLoop fn total chunk_size (remaining.drop chunk_size) (chunk_number + 1))
termination_by remaining.length
decreasing_by
  rw [List.take_eq_nil_iff] at h
  push_neg at h
  have h1 : 0 < remaining.length := List.length_pos.mpr h.2
  have h2 : chunk_size ≠ 0 := h.1
  simp only [List.length_drop]
  omega

/-- `_generate_file_chunks` (cliente.py lines 38-76) over in-memory file
content: computes `total_chunks` once from the file size, then runs the
read loop starting from `chunk_number = 0`. -/
def generate_file_chunks (fn : String) (content : List Nat) (chunk_size : Nat) :
    List FileChunk :=
  chunkLoop fn (totalChunks content.length chunk_size) chunk_size content 0

/-! ## MD5 digest

A concrete model of `hashlib.md5` as used by both endpoints: `md5Hex`
is the MD5 algorithm over a byte list, producing the lowercase
hex-encoded digest, and `md5FeedLoop` is the shared
`iter(lambda: f.read(4096), b"")` update loop (cliente.py lines 142-144
and server.py lines 85-87) that determines which byte stream is absorbed
by the hash object before `hexdigest()` is taken. -/

/-- Bytes absorbed by the hash object: repeatedly read `block` bytes and
append them to the stream fed so far; an empty read ends the loop. -/
def md5FeedLoop (block : Nat) (fed remaining : List Nat) : List Nat :=
  if h : remaining.take block = [] then fed
  else md5FeedLoop block (fed ++ remaining.take block) (remaining.drop block)
termination_by remaining.length
decreasing_by
  rw [List.take_eq_nil_iff] at h
  push_neg at h
  have h1 : 0 < remaining.length := List.length_pos.mpr h.2
  have h2 : block ≠ 0 := h.1
  simp only [List.length_drop]
  omega

/-- 2^32, the modulus for MD5 word arithmetic. -/
def pow32 : Nat := 4294967296

/-- Rotate a 32-bit word left by `s` bits. -/
def rotl32 (x s : Nat) : Nat :=
  ((x <<< s) ||| (x >>> (32 - s))) % pow32

/-- MD5 round function for rounds 0-15. -/
def md5F (b c d : Nat) : Nat := (b &&& c) ||| ((b ^^^ 4294967295) &&& d)

/-- MD5 round function for rounds 16-31. -/
def md5G (b c d : Nat) : Nat := (d &&& b) ||| ((d ^^^ 4294967295) &&& c)

/-- MD5 round function for rounds 32-47. -/
def md5H (b c d : Nat) : Nat := b ^^^ c ^^^ d

/-- MD5 round function for rounds 48-63. -/
def md5I (b c d : Nat) : Nat := c ^^^ (b ||| (d ^^^ 4294967295))

/-- The 64 MD5 sine-derived additive constants. -/
def md5K : List Nat :=
  [0xd76aa478, 0xe8c7b756, 0x242070db, 0xc1bdceee,
   0xf57c0faf, 0x4787c62a, 0xa8304613, 0xfd469501,
   0x698098d8, 0x8b44f7af, 0xffff5bb1, 0x895cd7be,
   0x6b901122, 0xfd987193, 0xa679438e, 0x49b40821,
   0xf61e2562, 0xc040b340, 0x265e5a51, 0xe9b6c7aa,
   0xd62f105d, 0x02441453, 0xd8a1e681, 0xe7d3fbc8,
   0x21e1cde6, 0xc33707d6, 0xf4d50d87, 0x455a14ed,
   0xa9e3e905, 0xfcefa3f8, 0x676f02d9, 0x8d2a4c8a,
   0xfffa3942, 0x8771f681, 0x6d9d6122, 0xfde5380c,
   0xa4beea44, 0x4bdecfa9, 0xf6bb4b60, 0xbebfbc70,
   0x289b7ec6, 0xeaa127fa, 0xd4ef3085, 0x04881d05,
   0xd9d4d039, 0xe6db99e5, 0x1fa27cf8, 0xc4ac5665,
   0xf4292244, 0x432aff97, 0xab9423a7, 0xfc93a039,
   0x655b59c3, 0x8f0ccc92, 0xffeff47d, 0x85845dd1,
   0x6fa87e4f, 0xfe2ce6e0, 0xa3014314, 0x4e0811a1,
   0xf7537e82, 0xbd3af235, 0x2ad7d2bb, 0xeb86d391]

/-- The 64 MD5 per-round left-rotation amounts. -/
def md5S : List Nat :=
  [7, 12, 17, 22, 7, 12, 17, 22, 7, 12, 17, 22, 7, 12, 17, 22,
   5, 9, 14, 20, 5, 9, 14, 20, 5, 9, 14, 20, 5, 9, 14, 20,
   4, 11, 16, 23, 4, 11, 16, 23, 4, 11, 16, 23, 4, 11, 16, 23,
   6, 10, 15, 21, 6, 10, 15, 21, 6, 10, 15, 21, 6, 10, 15, 21]

/-- One MD5 round step on the running state `(a, b, c, d)`, using the
16-word message schedule `M` of the current block. -/
def md5Step (M : List Nat) (st : Nat × Nat × Nat × Nat) (i : Nat) :
    Nat × Nat × Nat × Nat :=
  let (a, b, c, d) := st
  let fg : Nat × Nat :=
    if i < 16 then (md5F b c d, i)
    else if i < 32 then (md5G b c d, (5 * i + 1) % 16)
    else if i < 48 then (md5H b c d, (3 * i + 5) % 16)
    else (md5I b c d, (7 * i) % 16)
  let f := (fg.1 + a + md5K.getD i 0 + M.getD fg.2 0) % pow32
  (d, (b + rotl32 f (md5S.getD i 0)) % pow32, b, c)

/-- Process one padded 64-byte block: assemble the 16 little-endian
words, run the 64 rounds, and add the result into the chaining state. -/
def md5Block (st : Nat × Nat × Nat × Nat) (block : List Nat) :
    Nat × Nat × Nat × Nat :=
  let M := (List.range 16).map fun j =>
    block.getD (4 * j) 0 % 256 +
    256 * (block.getD (4 * j + 1) 0 % 256) +
    65536 * (block.getD (4 * j + 2) 0 % 256) +
    16777216 * (block.getD (4 * j + 3) 0 % 256)
  let r := (List.range 64).foldl (md5Step M) st
  ((st.1 + r.1) % pow32, (st.2.1 + r.2.1) % pow32,
   (st.2.2.1 + r.2.2.1) % pow32, (st.2.2.2 + r.2.2.2) % pow32)

/-- MD5 padding: append the `0x80` marker, zeros up to 56 mod 64 bytes,
then the original bit length as a 64-bit little-endian integer. -/
def md5Pad (msg : List Nat) : List Nat :=
  let L := msg.length
  let padlen := (55 + 64 - L % 64) % 64
  msg ++ [128] ++ List.replicate padlen 0 ++
    (List.range 8).map fun i => (L * 8) / 2 ^ (8 * i) % 256

/-- Split a list into consecutive pieces of `k` elements (the last may
be shorter); with `k = 64` this yields the MD5 blocks of a padded
message. -/
def piecesOf (k : Nat) (l : List Nat) : List (List Nat) :=
  if h : l.take k = [] then []
  else l.take k :: piecesOf k (l.drop k)
termination_by l.length
decreasing_by
  rw [List.take_eq_nil_iff] at h
  push_neg at h
  have h1 : 0 < l.length := List.length_pos.mpr h.2
  have h2 : k ≠ 0 := h.1
  simp only [List.length_drop]
  omega

/-- A 32-bit word as four little-endian bytes. -/
def wordLE (w : Nat) : List Nat :=
  [w % 256, w / 256 % 256, w / 65536 % 256, w / 16777216 % 256]

/-- Lowercase hex digit. -/
def hexChar (n : Nat) : Char :=
  if n < 10 then Char.ofNat (48 + n) else Char.ofNat (87 + n)

/-- A byte as two lowercase hex characters. -/
def byteHex (b : Nat) : String :=
  String.mk [hexChar (b / 16 % 16), hexChar (b % 16)]

/-- Hex encoding of a byte list. -/
def bytesToHex (bs : List Nat) : String :=
  String.join (bs.map byteHex)

/-- `hashlib.md5(bytes).hexdigest()`: the full MD5 digest of a byte
list, as a lowercase hex string. -/
def md5Hex (msg : List Nat) : String :=
  let st := (piecesOf 64 (md5Pad msg)).foldl md5Block
    (0x67452301, 0xefcdab89, 0x98badcfe, 0x10325476)
  bytesToHex (wordLE st.1 ++ wordLE st.2.1 ++ wordLE st.2.2.1 ++ wordLE st.2.2.2)

/-- `_calculate_md5` (cliente.py lines 139-145): feed the file to the
hash in 4096-byte reads and take the hex digest. -/
def calculate_md5 (content : List Nat) : String :=
  md5Hex (md5FeedLoop 4096 [] content)

/-! ## Server (`server.py`, `FileTransferServicer`) -/

/-- Message text of the exception Python raises when a `with` statement
is entered on `None` (the source text carries quotes around NoneType,
omitted here). -/
def contextManagerTypeError : String :=
  "NoneType object does not support the context manager protocol"

/-- Success response built at server.py lines 62-66. -/
def successResponse (filename : Option String) (total_bytes : Nat) :
    TransferResponse :=
  { success := true
    message := "Archivo " ++ filename.getD "None" ++ " recibido exitosamente"
    bytes_received := total_bytes }

/-- The receive loop of `TransferFile` (server.py lines 33-51), modelled
with its observable effects: on the first chunk the destination path
`upload_dir/chunk.filename` is opened for writing (recorded in `opened`)
and the filename is latched; every chunk's data is written to the
current handle (recorded in `writes`); the loop ends on `is_last_chunk`
or when the iterator is exhausted, after which the handle is closed and
the success response is returned.  In the source this loop is
unreachable: the `with` statement guarding it raises before the first
iteration (see `TransferFile`). -/
def serverReceiveLoop (upload_dir : String) :
    List FileChunk → Option String → Option String → Nat → Nat →
    List String → List (String × List Nat) →
    TransferResponse × List String × List (String × List Nat)
  | [], filename, _f, total_bytes, _chunks_received, opened, writes =>
      (successResponse filename total_bytes, opened, writes)
  | chunk :: rest, filename, f, total_bytes, chunks_received, opened, writes =>
      let fname := match filename with
        | none => chunk.filename
        | some n => n
      let handle := match filename with
        | none => some (upload_dir ++ "/" ++ chunk.filename)
        | some _ => f
      let opened := match filename with
        | none => opened ++ [upload_dir ++ "/" ++ chunk.filename]
        | some _ => opened
      let writes := writes ++ [(handle.getD "", chunk.data)]
      let total_bytes := total_bytes + chunk.data.length
      let chunks_received := chunks_received + 1
      if chunk.is_last_chunk then
        (successResponse (some fname) total_bytes, opened, writes)
      else
        serverReceiveLoop upload_dir rest (some fname) handle total_bytes
          chunks_received opened writes

/-- `TransferFile` (server.py lines 23-74).  Local variables `filename`
and `file_path` are initialised to `None` (lines 25-26).  Line 32 is
`with open(file_path, 'wb') if file_path else None as f:` — since
`file_path` is still `None` when the conditional expression is
evaluated, the expression yields `None`, and entering a `with` block on
`None` raises a `TypeError` before the first chunk of
`request_iterator` is consumed.  Control transfers to the
`except Exception` handler (lines 68-74), which returns a failure
response carrying the current `total_bytes`, still `0`.

The result is the response paired with the effects (paths opened for
writing, write calls performed); on this path both effect lists are
empty. -/
def TransferFile (upload_dir : String) (request_iterator : List FileChunk) :
    TransferResponse × List String × List (String × List Nat) :=
  let filename : Option String := none
  let file_path : Option String := none
  let total_bytes : Nat := 0
  let chunks_received : Nat := 0
  match file_path with
  | some p =>
      serverReceiveLoop upload_dir request_iterator filename (some p)
        total_bytes chunks_received [p] []
  | none =>
      ({ success := false
         message := "Error: " ++ contextManagerTypeError
         bytes_received := total_bytes }, [], [])

/-- The checksum computation inside `GetFileInfo` (server.py lines
83-92): feed the stored file to an MD5 object in 4096-byte reads and
take the hex digest. -/
def getFileInfoChecksum (content : List Nat) : String :=
  md5Hex (md5FeedLoop 4096 [] content)

/-- `GetFileInfo` (server.py lines 76-99) over the upload directory
modelled as a partial map from filenames to contents: if the file
exists, report its size and fresh MD5 checksum; otherwise report
`exists = false`, size `0` and an empty checksum. -/
def GetFileInfo (files : String → Option (List Nat)) (filename : String) :
    FileInfoResponse :=
  match files filename with
  | some content =>
      { file_exists := true
        file_size := content.length
        checksum := getFileInfoChecksum content }
  | none =>
      { file_exists := false
        file_size := 0
        checksum := "" }

/-- `verify_file` (cliente.py lines 112-137): query the server for the
file info; if the file exists remotely, compute the local MD5 and
compare it to the reported checksum with exact string equality;
otherwise fail immediately. -/
def verify_file (files : String → Option (List Nat)) (filename : String)
    (local_content : List Nat) : Bool :=
  let response := GetFileInfo files filename
  if response.file_exists then
    let local_checksum := calculate_md5 local_content
    local_checksum == response.checksum
  else
    false

/-! ## Arithmetic facts about `totalChunks` -/

/-- Ceiling division of zero. -/
lemma totalChunks_zero {cs : Nat} (hcs : 0 < cs) : totalChunks 0 cs = 0 := by
  unfold totalChunks
  exact Nat.div_eq_of_lt (by omega)

/-- Closed form of `totalChunks` for a positive size. -/
lemma totalChunks_eq_succ {L cs : Nat} (hL : 0 < L) (hcs : 0 < cs) :
    totalChunks L cs = (L - 1) / cs + 1 := by
  unfold totalChunks
  have h : L + cs - 1 = (L - 1) + cs := by omega
  rw [h, Nat.add_div_right _ hcs]

/-- A positive size yields at least one chunk. -/
lemma totalChunks_pos {L cs : Nat} (hL : 0 < L) (hcs : 0 < cs) :
    0 < totalChunks L cs := by
  rw [totalChunks_eq_succ hL hcs]
  exact Nat.succ_pos _

/-- Consuming one chunk of size `cs` decreases the chunk count by one. -/
lemma totalChunks_drop {L cs : Nat} (hL : 0 < L) (hcs : 0 < cs) :
    totalChunks L cs = totalChunks (L - cs) cs + 1 := by
  rcases le_or_lt cs L with h | h
  · have h1 : totalChunks (L - cs) cs = (L - 1) / cs := by
      unfold totalChunks
      have h2 : L - cs + cs - 1 = L - 1 := by omega
      rw [h2]
    rw [totalChunks_eq_succ hL hcs, h1]
  · have h0 : L - cs = 0 := by omega
    rw [h0, totalChunks_zero hcs, totalChunks_eq_succ hL hcs,
      Nat.div_eq_of_lt (by omega)]

/-- A single chunk means the whole file fits in one chunk. -/
lemma length_le_of_totalChunks_eq_one {L cs : Nat} (hL : 0 < L) (hcs : 0 < cs)
    (h : totalChunks L cs = 1) : L ≤ cs := by
  rw [totalChunks_eq_succ hL hcs] at h
  have h1 : (L - 1) / cs = 0 := by omega
  have h2 : L - 1 < cs := (Nat.div_eq_zero_iff hcs).mp h1
  omega

/-- The chunks cover the whole file: `S ≤ totalChunks S cs * cs`. -/
lemma le_totalChunks_mul {L cs : Nat} (hL : 0 < L) (hcs : 0 < cs) :
    L ≤ totalChunks L cs * cs := by
  rw [totalChunks_eq_succ hL hcs]
  have h1 := Nat.div_add_mod (L - 1) cs
  have h2 : (L - 1) % cs < cs := Nat.mod_lt _ hcs
  have h3 : ((L - 1) / cs + 1) * cs = cs * ((L - 1) / cs) + cs := by ring
  omega

/-- All chunks but the last start strictly inside the file. -/
lemma mul_lt_of_lt_totalChunks {L cs i : Nat} (hL : 0 < L) (hcs : 0 < cs)
    (h : i + 1 < totalChunks L cs) : (i + 1) * cs ≤ L - 1 := by
  rw [totalChunks_eq_succ hL hcs] at h
  have h1 : i + 1 ≤ (L - 1) / cs := by omega
  exact (Nat.le_div_iff_mul_le hcs).mp h1

/-! ## The chunk generator in closed form -/

/-- Closed form of the generator loop: starting from `chunk_number = k`
with the invariant `total = k + totalChunks remaining.length cs`, the
loop emits one chunk per index `i < totalChunks remaining.length cs`,
whose data is the `i`-th `cs`-byte slice of the remaining content,
numbered `k + i + 1`, with `total_chunks` carried unchanged and the
final flag set exactly on chunk number `total`. -/
lemma chunkLoop_eq (fn : String) (cs : Nat) (hcs : 0 < cs) :
    ∀ (n : Nat) (rem : List Nat), rem.length ≤ n → ∀ (k total : Nat),
      total = k + totalChunks rem.length cs →
      chunkLoop fn total cs rem k =
        (List.range (totalChunks rem.length cs)).map (fun i =>
          { filename := fn
            data := (rem.drop (i * cs)).take cs
            chunk_number := k + i + 1
            total_chunks := total
            is_last_chunk := k + i + 1 == total }) := by
  intro n
  induction n with
  | zero =>
      intro rem hlen k total htot
      have hnil : rem = [] := List.eq_nil_of_length_eq_zero (Nat.le_zero.mp hlen)
      subst hnil
      rw [chunkLoop]
      simp [totalChunks_zero hcs]
  | succ n ih =>
      intro rem hlen k total htot
      rcases eq_or_ne rem [] with hnil | hne
      · subst hnil
        rw [chunkLoop]
        simp [totalChunks_zero hcs]
      · have hL : 0 < rem.length := List.length_pos.mpr hne
        have htake : ¬ rem.take cs = [] := by
          rw [List.take_eq_nil_iff]
          push_neg
          exact ⟨by omega, hne⟩
        have hdropq : totalChunks (rem.drop cs).length cs + 1
            = totalChunks rem.length cs := by
          rw [List.length_drop]
          exact (totalChunks_drop hL hcs).symm
        rw [chunkLoop, dif_neg htake]
        rw [← hdropq, List.range_succ_eq_map, List.map_cons, List.map_map]
        have hrec : chunkLoop fn total cs (rem.drop cs) (k + 1) =
            (List.range (totalChunks (rem.drop cs).length cs)).map (fun i =>
              { filename := fn
                data := ((rem.drop cs).drop (i * cs)).take cs
                chunk_number := k + 1 + i + 1
                total_chunks := total
                is_last_chunk := k + 1 + i + 1 == total }) := by
          apply ih
          · rw [List.length_drop]; omega
          · omega
        have hmapeq :
            (List.range (totalChunks (rem.drop cs).length cs)).map
              ((fun i : Nat =>
                ({ filename := fn
                   data := (rem.drop (i * cs)).take cs
                   chunk_number := k + i + 1
                   total_chunks := total
                   is_last_chunk := k + i + 1 == total } : FileChunk)) ∘ Nat.succ) =
            (List.range (totalChunks (rem.drop cs).length cs)).map (fun i =>
              { filename := fn
                data := ((rem.drop cs).drop (i * cs)).take cs
                chunk_number := k + 1 + i + 1
                total_chunks := total
                is_last_chunk := k + 1 + i + 1 == total }) := by
          apply List.map_congr_left
          intro i _
          simp only [Function.comp_apply, Nat.succ_eq_add_one]
          have hd : (rem.drop cs).drop (i * cs) = rem.drop ((i + 1) * cs) := by
            rw [List.drop_drop]
            have : cs + i * cs = (i + 1) * cs := by ring
            rw [this]
          have hn : k + (i + 1) + 1 = k + 1 + i + 1 := by omega
          rw [hd, hn]
        by_cases hlast : k + 1 = total
        · have hq1 : totalChunks rem.length cs = 1 := by omega
          have hq0 : totalChunks (rem.drop cs).length cs = 0 := by omega
          rw [hq0] at hrec ⊢
          simp only [List.range_zero, List.map_nil]
          simp [hlast, List.drop_zero]
        · have hbeq : (k + 1 == total) = false := by
            simp [hlast]
          simp only [hbeq, Bool.false_eq_true, if_false, hrec, hmapeq]
          simp [List.drop_zero]


/-- Closed form of `_generate_file_chunks`: chunk `i` (0-based) carries
the `i`-th `cs`-byte slice of the file, is numbered `i + 1`, embeds the
constant `total_chunks`, and is flagged final exactly when it is chunk
number `total_chunks`. -/
lemma generate_file_chunks_eq (fn : String) (content : List Nat) (cs : Nat)
    (hcs : 0 < cs) :
    generate_file_chunks fn content cs =
      (List.range (totalChunks content.length cs)).map (fun i =>
        { filename := fn
          data := (content.drop (i * cs)).take cs
          chunk_number := i + 1
          total_chunks := totalChunks content.length cs
          is_last_chunk := i + 1 == totalChunks content.length cs }) := by
  unfold generate_file_chunks
  rw [chunkLoop_eq fn cs hcs content.length content le_rfl 0 _ (by omega)]
  apply List.map_congr_left
  intro i _
  simp

/-- Concatenating the `cs`-byte slices indexed by `0, …, totalChunks - 1`
reconstructs the original content. -/
lemma flatten_slices (cs : Nat) (hcs : 0 < cs) :
    ∀ (n : Nat) (l : List Nat), l.length ≤ n →
      ((List.range (totalChunks l.length cs)).map
        (fun i => (l.drop (i * cs)).take cs)).flatten = l := by
  intro n
  induction n with
  | zero =>
      intro l hlen
      have hnil : l = [] := List.eq_nil_of_length_eq_zero (Nat.le_zero.mp hlen)
      subst hnil
      simp [totalChunks_zero hcs]
  | succ n ih =>
      intro l hlen
      rcases eq_or_ne l [] with hnil | hne
      · subst hnil
        simp [totalChunks_zero hcs]
      · have hL : 0 < l.length := List.length_pos.mpr hne
        have hdropq : totalChunks (l.drop cs).length cs + 1
            = totalChunks l.length cs := by
          rw [List.length_drop]
          exact (totalChunks_drop hL hcs).symm
        rw [← hdropq, List.range_succ_eq_map, List.map_cons, List.map_map,
          List.flatten_cons]
        have hmapeq :
            (List.range (totalChunks (l.drop cs).length cs)).map
              ((fun i : Nat => (l.drop (i * cs)).take cs) ∘ Nat.succ) =
            (List.range (totalChunks (l.drop cs).length cs)).map
              (fun i => ((l.drop cs).drop (i * cs)).take cs) := by
          apply List.map_congr_left
          intro i _
          simp only [Function.comp_apply, Nat.succ_eq_add_one]
          rw [List.drop_drop]
          have h : cs + i * cs = (i + 1) * cs := by ring
          rw [h]
        rw [hmapeq, ih (l.drop cs) (by rw [List.length_drop]; omega)]
        simp [List.take_append_drop]

/-- The digest read loop feeds exactly the whole content, in order, to
the hash object. -/
lemma md5FeedLoop_eq (block : Nat) (hb : 0 < block) :
    ∀ (n : Nat) (remaining : List Nat), remaining.length ≤ n →
      ∀ fed, md5FeedLoop block fed remaining = fed ++ remaining := by
  intro n
  induction n with
  | zero =>
      intro remaining hlen fed
      have hnil : remaining = [] := List.eq_nil_of_length_eq_zero (Nat.le_zero.mp hlen)
      subst hnil
      rw [md5FeedLoop]
      simp
  | succ n ih =>
      intro remaining hlen fed
      rcases eq_or_ne remaining [] with hnil | hne
      · subst hnil
        rw [md5FeedLoop]
        simp
      · have hL : 0 < remaining.length := List.length_pos.mpr hne
        have htake : ¬ remaining.take block = [] := by
          rw [List.take_eq_nil_iff]
          push_neg
          exact ⟨by omega, hne⟩
        rw [md5FeedLoop, dif_neg htake,
          ih (remaining.drop block) (by rw [List.length_drop]; omega)]
        rw [List.append_assoc, List.take_append_drop]

/-- `calculate_md5` is the MD5 of the whole file content. -/
lemma calculate_md5_eq (content : List Nat) :
    calculate_md5 content = md5Hex content := by
  unfold calculate_md5
  rw [md5FeedLoop_eq 4096 (by omega) content.length content le_rfl []]
  rfl

/-- The checksum computed inside `GetFileInfo` is the MD5 of the stored
content. -/
lemma getFileInfoChecksum_eq (content : List Nat) :
    getFileInfoChecksum content = md5Hex content := by
  unfold getFileInfoChecksum
  rw [md5FeedLoop_eq 4096 (by omega) content.length content le_rfl []]
  rfl

/-- Reassembling the generated chunks in order reproduces the source
content byte for byte. -/
lemma generate_file_chunks_flatten (fn : String) (content : List Nat)
    (cs : Nat) (hcs : 0 < cs) :
    ((generate_file_chunks fn content cs).map FileChunk.data).flatten
      = content := by
  rw [generate_file_chunks_eq fn content cs hcs, List.map_map]
  exact flatten_slices cs hcs content.length content le_rfl

/-- The server response is the same for every request: the `with`
statement at server.py line 32 raises before the iterator is touched,
so `TransferFile` is a constant function of its chunk stream. -/
lemma transferFile_const (upload_dir : String) (chunks : List FileChunk) :
    TransferFile upload_dir chunks =
      ({ success := false
         message := "Error: " ++ contextManagerTypeError
         bytes_received := 0 }, [], []) := rfl

/-- The generator emits nothing for an empty file: the very first read
returns no bytes and the loop ends before any chunk is yielded. -/
lemma generate_file_chunks_nil (fn : String) (cs : Nat) :
    generate_file_chunks fn [] cs = [] := by
  unfold generate_file_chunks
  rw [chunkLoop]
  simp

/-! ## Claims -/

/-- C2: for every incoming chunk sequence, including a well-formed one,
the server's `TransferFile` returns `success = false` with
`bytes_received = 0`, opens no destination file and writes no bytes: the
context-manager expression `open(file_path, 'wb') if file_path else
None` evaluates to `None` (`file_path` is `None` at that point), so the
`with` statement raises before the first chunk is consumed and the
`except` handler turns this into a failed response. -/
theorem claim_C2_server_always_fails (upload_dir : String)
    (chunks : List FileChunk) :
    (TransferFile upload_dir chunks).1.success = false ∧
    (TransferFile upload_dir chunks).1.bytes_received = 0 ∧
    (TransferFile upload_dir chunks).2.1 = [] ∧
    (TransferFile upload_dir chunks).2.2 = [] := by
  rw [transferFile_const]
  exact ⟨rfl, rfl, rfl, rfl⟩

/-- C5: for every file of size `S > 0` and chunk size `C > 0` the
producer emits exactly `⌈S / C⌉` chunks, in strictly ascending sequence
order starting at 1; `total_chunks` (computed once before the first
chunk) is carried unchanged in every chunk; every chunk except the last
has data of size exactly `C`, and the last has size `S mod C` (or `C`
when `C` divides `S`). -/
theorem claim_C5_producer_invariants (fn : String) (content : List Nat)
    (cs : Nat) (hS : 0 < content.length) (hcs : 0 < cs) :
    (generate_file_chunks fn content cs).length
      = totalChunks content.length cs ∧
    (generate_file_chunks fn content cs).map FileChunk.chunk_number
      = (List.range (totalChunks content.length cs)).map (fun i => i + 1) ∧
    (generate_file_chunks fn content cs).map FileChunk.total_chunks
      = List.replicate (totalChunks content.length cs)
          (totalChunks content.length cs) ∧
    (generate_file_chunks fn content cs).map (fun c => c.data.length)
      = (List.range (totalChunks content.length cs)).map (fun i =>
          if i + 1 = totalChunks content.length cs then
            (if content.length % cs = 0 then cs else content.length % cs)
          else cs) := by
  rw [generate_file_chunks_eq fn content cs hcs]
  refine ⟨by simp, ?_, ?_, ?_⟩
  · rw [List.map_map]
    apply List.map_congr_left
    intro i _
    rfl
  · rw [List.map_map]
    rw [List.eq_replicate_iff]
    constructor
    · simp
    · intro b hb
      simp only [List.mem_map, List.mem_range] at hb
      obtain ⟨i, _, hi⟩ := hb
      exact hi.symm
  · rw [List.map_map]
    apply List.map_congr_left
    intro i hi
    rw [List.mem_range] at hi
    simp only [Function.comp_apply, List.length_take, List.length_drop]
    rcases eq_or_ne (i + 1) (totalChunks content.length cs) with hlast | hmid
    · rw [if_pos hlast]
      have hib : i * cs < content.length := by
        have h1 : i = (content.length - 1) / cs := by
          rw [totalChunks_eq_succ hS hcs] at hlast
          omega
        have h2 : (content.length - 1) / cs * cs ≤ content.length - 1 :=
          Nat.div_mul_le_self _ _
        rw [h1]
        omega
      have hub : content.length ≤ i * cs + cs := by
        have h1 := le_totalChunks_mul hS hcs
        have h2 : totalChunks content.length cs * cs = i * cs + cs := by
          rw [← hlast]; ring
        omega
      have hmod : content.length % cs = (content.length - i * cs) % cs := by
        have h3 : content.length = i * cs + (content.length - i * cs) := by omega
        conv_lhs => rw [h3]
        rw [Nat.add_comm (i * cs) _, Nat.add_mul_mod_self_right]
      rcases eq_or_ne (content.length - i * cs) cs with hfull | hpart
      · rw [hmod, hfull, Nat.mod_self, if_pos rfl]
        exact Nat.min_self cs
      · have hlt : content.length - i * cs < cs := by omega
        rw [hmod, Nat.mod_eq_of_lt hlt, if_neg (by omega)]
        exact Nat.min_eq_right (by omega)
    · have hi1 : i + 1 < totalChunks content.length cs := by omega
      rw [if_neg hmid]
      have h1 : (i + 1) * cs ≤ content.length - 1 :=
        mul_lt_of_lt_totalChunks hS hcs hi1
      have h2 : (i + 1) * cs = i * cs + cs := by ring
      exact Nat.min_eq_left (by omega)

/-- C5 witness: the invariants instantiated on the 3-byte file
`[10, 20, 30]` with chunk size 2. -/
theorem claim_C5_witness :
    0 < ([10, 20, 30] : List Nat).length ∧ (0 : Nat) < 2 ∧
    ((generate_file_chunks "f.bin" [10, 20, 30] 2).length
        = totalChunks ([10, 20, 30] : List Nat).length 2 ∧
      (generate_file_chunks "f.bin" [10, 20, 30] 2).map FileChunk.chunk_number
        = (List.range (totalChunks ([10, 20, 30] : List Nat).length 2)).map
            (fun i => i + 1) ∧
      (generate_file_chunks "f.bin" [10, 20, 30] 2).map FileChunk.total_chunks
        = List.replicate (totalChunks ([10, 20, 30] : List Nat).length 2)
            (totalChunks ([10, 20, 30] : List Nat).length 2) ∧
      (generate_file_chunks "f.bin" [10, 20, 30] 2).map (fun c => c.data.length)
        = (List.range (totalChunks ([10, 20, 30] : List Nat).length 2)).map
            (fun i =>
              if i + 1 = totalChunks ([10, 20, 30] : List Nat).length 2 then
                (if ([10, 20, 30] : List Nat).length % 2 = 0 then 2
                 else ([10, 20, 30] : List Nat).length % 2)
              else 2)) :=
  ⟨by decide, by decide,
    claim_C5_producer_invariants "f.bin" [10, 20, 30] 2 (by decide) (by decide)⟩

/-- C1: the concrete scenario of a 2,500,000-byte source file with chunk
size 1,000,000.  The producer side of the claim holds: chunks are
numbered 1 to 3 with data sizes 1,000,000, 1,000,000 and 500,000, the
final flag set only on chunk 3 and `total_chunks = 3` in every chunk.
The receiver side of the claim fails on the code: `TransferFile` on this
very stream returns `success = false` with `bytes_received = 0`, because
the `with` statement at server.py line 32 is entered on `None` and
raises before any chunk is consumed. -/
theorem claim_C1_concrete_scenario (fn : String) (content : List Nat)
    (h : content.length = 2500000) :
    (generate_file_chunks fn content 1000000).map
        (fun c => (c.chunk_number, c.data.length, c.is_last_chunk))
      = [(1, 1000000, false), (2, 1000000, false), (3, 500000, true)] ∧
    (generate_file_chunks fn content 1000000).map FileChunk.total_chunks
      = [3, 3, 3] ∧
    (TransferFile "./uploads" (generate_file_chunks fn content 1000000)).1.success
      = false ∧
    (TransferFile "./uploads" (generate_file_chunks fn content 1000000)).1.bytes_received
      = 0 := by
  have ht : totalChunks content.length 1000000 = 3 := by rw [h]; rfl
  rw [generate_file_chunks_eq fn content 1000000 (by omega), ht]
  refine ⟨?_, ?_, ?_, ?_⟩
  · show List.map _ (List.map _ [0, 1, 2]) = _
    simp [List.length_take, List.length_drop, h]
  · show List.map _ (List.map _ [0, 1, 2]) = _
    simp
  · rw [transferFile_const]
  · rw [transferFile_const]

/-- C1 witness: the scenario instantiated on the all-zero file of
2,500,000 bytes. -/
theorem claim_C1_witness :
    (List.replicate 2500000 (0 : Nat)).length = 2500000 ∧
    ((generate_file_chunks "big.bin" (List.replicate 2500000 (0 : Nat)) 1000000).map
        (fun c => (c.chunk_number, c.data.length, c.is_last_chunk))
      = [(1, 1000000, false), (2, 1000000, false), (3, 500000, true)] ∧
    (generate_file_chunks "big.bin" (List.replicate 2500000 (0 : Nat)) 1000000).map
        FileChunk.total_chunks = [3, 3, 3] ∧
    (TransferFile "./uploads"
        (generate_file_chunks "big.bin" (List.replicate 2500000 (0 : Nat)) 1000000)).1.success
      = false ∧
    (TransferFile "./uploads"
        (generate_file_chunks "big.bin" (List.replicate 2500000 (0 : Nat)) 1000000)).1.bytes_received
      = 0) := by
  have hl : (List.replicate 2500000 (0 : Nat)).length = 2500000 :=
    List.length_replicate 2500000 0
  exact ⟨hl, claim_C1_concrete_scenario "big.bin" _ hl⟩

/-- C3: the claim that the destination handle is closed on every exit
path (success and write-failure alike) describes exits the code does not
have.  Evaluated on a well-formed single-chunk session, `TransferFile`
raises on entering `with None` before the chunk is consumed: no
destination handle is ever opened (the opened-paths effect list is
empty), nothing is written, and the only exit path is the failure
response — there is no success exit and no scoped release of the
lazily opened handle. -/
theorem claim_C3_no_handle_ever_opened :
    TransferFile "./uploads"
        [{ filename := "a.txt", data := [1, 2, 3], chunk_number := 1,
           total_chunks := 1, is_last_chunk := true }]
      = ({ success := false
           message := "Error: " ++ contextManagerTypeError
           bytes_received := 0 }, [], []) := rfl

/-- C4 counterexample: no `MalformedChunk` rejection exists.  A chunk
violating the claimed codec invariants (no filename on the first chunk,
`sequence_number = 5` greater than `total_chunks = 2`) produces exactly
the same response as a well-formed chunk — the generic failure from the
`with None` statement — so no validation distinguishes malformed input
before chunk fields would be consumed. -/
theorem claim_C4_counterexample :
    TransferFile "./uploads"
        [{ filename := "", data := [9], chunk_number := 5,
           total_chunks := 2, is_last_chunk := false }]
      = TransferFile "./uploads"
          [{ filename := "b.txt", data := [9], chunk_number := 1,
             total_chunks := 1, is_last_chunk := true }] ∧
    (TransferFile "./uploads"
        [{ filename := "", data := [9], chunk_number := 5,
           total_chunks := 2, is_last_chunk := false }]).1.message
      = "Error: " ++ contextManagerTypeError := ⟨rfl, rfl⟩

/-- C4 amended: the server performs no chunk validation at all.  The
response is independent of the incoming chunk sequence (malformed and
well-formed chunks alike produce the identical generic failure raised
before any chunk field is consumed), and no bytes are ever written to a
destination. -/
theorem claim_C4_amended_no_validation (upload_dir : String)
    (chunks : List FileChunk) :
    TransferFile upload_dir chunks = TransferFile upload_dir [] ∧
    (TransferFile upload_dir chunks).2.2 = [] := ⟨rfl, rfl⟩

/-- C6: for a 0-byte source file the producer computes
`total_chunks = 0` and emits no chunks (the fixed policy of the code).
The receiver side of the claim fails on the code: on the resulting empty
chunk stream `TransferFile` returns `success = false` (not the claimed
`success = true`) with `bytes_received = 0`, though indeed without
opening any destination file. -/
theorem claim_C6_zero_byte_file (fn upload_dir : String) (cs : Nat)
    (hcs : 0 < cs) :
    totalChunks 0 cs = 0 ∧
    generate_file_chunks fn [] cs = [] ∧
    (TransferFile upload_dir []).1.success = false ∧
    (TransferFile upload_dir []).1.bytes_received = 0 ∧
    (TransferFile upload_dir []).2.1 = [] := by
  refine ⟨totalChunks_zero hcs, generate_file_chunks_nil fn cs, ?_, ?_, ?_⟩ <;>
    rw [transferFile_const]

/-- C6 witness: the zero-byte scenario at chunk size 1. -/
theorem claim_C6_witness :
    (0 : Nat) < 1 ∧
    (totalChunks 0 1 = 0 ∧
      generate_file_chunks "empty.bin" [] 1 = [] ∧
      (TransferFile "./uploads" []).1.success = false ∧
      (TransferFile "./uploads" []).1.bytes_received = 0 ∧
      (TransferFile "./uploads" []).2.1 = []) :=
  ⟨by decide, claim_C6_zero_byte_file "empty.bin" "./uploads" 1 (by decide)⟩

/-- C7: `GetFileInfo` on a filename with no stored file returns
`exists = false`, `file_size = 0` and an empty checksum; and in every
response, `exists = false` implies `file_size = 0` and an empty
checksum. -/
theorem claim_C7_missing_file (files : String → Option (List Nat))
    (filename : String) :
    (files filename = none →
      GetFileInfo files filename
        = { file_exists := false, file_size := 0, checksum := "" }) ∧
    ((GetFileInfo files filename).file_exists = false →
      (GetFileInfo files filename).file_size = 0 ∧
      (GetFileInfo files filename).checksum = "") := by
  unfold GetFileInfo
  cases hf : files filename with
  | none => exact ⟨fun _ => rfl, fun _ => ⟨rfl, rfl⟩⟩
  | some c =>
      refine ⟨fun hcontra => ?_, fun hcontra => ?_⟩
      · exact absurd hcontra (by simp)
      · exact absurd hcontra (by simp)

/-- C7 witness: the missing-file query on an empty server store. -/
theorem claim_C7_witness :
    GetFileInfo (fun _ => none) "missing.bin"
      = { file_exists := false, file_size := 0, checksum := "" } ∧
    ((GetFileInfo (fun _ => none) "missing.bin").file_size = 0 ∧
      (GetFileInfo (fun _ => none) "missing.bin").checksum = "") :=
  ⟨(claim_C7_missing_file (fun _ => none) "missing.bin").1 rfl,
    (claim_C7_missing_file (fun _ => none) "missing.bin").2 rfl⟩

/-- C8: digesting is deterministic (the same content always yields the
identical hex fingerprint), the Sender's digest and the Receiver's
`GetFileInfo` digest agree on identical byte content, and both are
independent of the chunk size used during transfer: the digest of the
content reassembled from any chunking equals the digest of the content
reassembled from any other. -/
theorem claim_C8_digest_deterministic (fn1 fn2 : String)
    (content : List Nat) (c1 c2 : Nat) (h1 : 0 < c1) (h2 : 0 < c2) :
    calculate_md5 content = calculate_md5 content ∧
    calculate_md5 content = getFileInfoChecksum content ∧
    calculate_md5
        (((generate_file_chunks fn1 content c1).map FileChunk.data).flatten)
      = getFileInfoChecksum
          (((generate_file_chunks fn2 content c2).map FileChunk.data).flatten) := by
  refine ⟨rfl, ?_, ?_⟩
  · rw [calculate_md5_eq, getFileInfoChecksum_eq]
  · rw [generate_file_chunks_flatten fn1 content c1 h1,
      generate_file_chunks_flatten fn2 content c2 h2,
      calculate_md5_eq, getFileInfoChecksum_eq]

/-- C8 witness: determinism and chunking-independence instantiated on
the 3-byte content `[97, 98, 99]` with transfer chunk sizes 1 and 2. -/
theorem claim_C8_witness :
    (0 : Nat) < 1 ∧ (0 : Nat) < 2 ∧
    (calculate_md5 [97, 98, 99] = calculate_md5 [97, 98, 99] ∧
      calculate_md5 [97, 98, 99] = getFileInfoChecksum [97, 98, 99] ∧
      calculate_md5
          (((generate_file_chunks "a.bin" [97, 98, 99] 1).map
            FileChunk.data).flatten)
        = getFileInfoChecksum
            (((generate_file_chunks "b.bin" [97, 98, 99] 2).map
              FileChunk.data).flatten)) :=
  ⟨by decide, by decide,
    claim_C8_digest_deterministic "a.bin" "b.bin" [97, 98, 99] 1 2
      (by decide) (by decide)⟩

/-- C9: `verify_file` fails immediately when the remote response has
`exists = false` (no checksum comparison can occur: the comparison
branch is never reached), and otherwise succeeds exactly when the
locally computed fingerprint equals the remote checksum under exact
string equality. -/
theorem claim_C9_verify (files : String → Option (List Nat))
    (filename : String) (local_content : List Nat) :
    ((GetFileInfo files filename).file_exists = false →
      verify_file files filename local_content = false) ∧
    ((GetFileInfo files filename).file_exists = true →
      (verify_file files filename local_content = true ↔
        calculate_md5 local_content = (GetFileInfo files filename).checksum)) := by
  constructor
  · intro h
    simp [verify_file, h]
  · intro h
    simp [verify_file, h]

/-- C9 witness: verification against an empty store fails immediately;
verification against a store holding `[97]` under the same bytes
locally reduces to the checksum equation and succeeds. -/
theorem claim_C9_witness :
    verify_file (fun _ => none) "x.bin" [97] = false ∧
    (verify_file (fun _ => some [97]) "x.bin" [97] = true ↔
      calculate_md5 [97] = (GetFileInfo (fun _ => some [97]) "x.bin").checksum) :=
  ⟨(claim_C9_verify (fun _ => none) "x.bin" [97]).1 rfl,
    (claim_C9_verify (fun _ => some [97]) "x.bin" [97]).2 rfl⟩

/-- C10: the progress expression in the producer divides by `file_size`
only in loop iterations that follow a non-empty read; whenever the
generator has emitted at least one chunk the file size is positive, and
for a 0-byte file no chunk is ever emitted, so the division is never
reached with a zero divisor. -/
theorem claim_C10_progress_division_safe (fn : String) (content : List Nat)
    (cs : Nat) :
    (generate_file_chunks fn content cs ≠ [] → 0 < content.length) ∧
    (content.length = 0 → generate_file_chunks fn content cs = []) := by
  have hz : content.length = 0 → generate_file_chunks fn content cs = [] := by
    intro h0
    have hnil : content = [] := List.eq_nil_of_length_eq_zero h0
    rw [hnil]
    exact generate_file_chunks_nil fn cs
  refine ⟨fun hne => ?_, hz⟩
  by_contra hle
  push_neg at hle
  exact hne (hz (by omega))

/-- C10 witness: the 1-byte file at chunk size 1 emits a chunk, and the
theorem then yields the positive divisor. -/
theorem claim_C10_witness :
    generate_file_chunks "f.bin" [7] 1 ≠ [] ∧ 0 < ([7] : List Nat).length := by
  have hne : generate_file_chunks "f.bin" [7] 1 ≠ [] := by
    rw [generate_file_chunks_eq "f.bin" [7] 1 (by decide)]
    simp [totalChunks]
  exact ⟨hne, (claim_C10_progress_division_safe "f.bin" [7] 1).1 hne⟩

end Grcpredes
